import Mathlib

/-!
Shallow embedding of `src/INS_M/ig_free.py`, the browser-driven Instagram
pipeline (hashtag discovery → post-owner resolution → profile enrichment).
Python text is modelled as `List Char`; the `re` patterns used by the scraper
are modelled by direct operational scanning functions whose doc comments cite
the pattern they embed; Python dicts by association lists.  Browser
interactions (navigation results, the in-page API response, DOM queries) are
modelled as explicit page-outcome data fed to the pure extraction logic.
-/

namespace IgFree

/-- Python strings are modelled as lists of characters. -/
abbrev Str := List Char

/-- Characters that Python `str.strip` and the regex class `\s` treat as
whitespace, restricted to the ASCII range (the scraper only manipulates
ASCII whitespace). -/
def isPySpaceChar (c : Char) : Bool :=
  c == ' ' || c == '\t' || c == '\n' || c == '\r' || c == '\x0b' || c == '\x0c'

/-- Python `str.lower` on the ASCII range. -/
def pyLower (c : Char) : Char :=
  if 'A' ≤ c && c ≤ 'Z' then Char.ofNat (c.toNat + 32) else c

/-- Leading-whitespace removal, first half of Python `str.strip()`. -/
def dropLeadingWs (s : Str) : Str := s.dropWhile isPySpaceChar

/-- Trailing-whitespace removal, second half of Python `str.strip()`;
the result is always a prefix of the input. -/
def dropTrailingWs : Str → Str
  | [] => []
  | c :: rest =>
    let r := dropTrailingWs rest
    if r.isEmpty && isPySpaceChar c then [] else c :: r

/-- Python `str.strip()`. -/
def stripStr (s : Str) : Str := dropTrailingWs (dropLeadingWs s)

/-- The regex class `[\d\.]` of `parse_count`. -/
def isDigitDot (c : Char) : Bool := c.isDigit || c == '.'

/-- Value of a decimal digit string, most significant digit first. -/
def natOfDigits (s : Str) : Nat := s.foldl (fun a c => a * 10 + (c.toNat - 48)) 0

/-- Python `float(s)` for a non-empty string of digits and periods, returned
as an exact fraction `(numerator, denominator)` with the denominator a power
of ten.  `float` accepts such a string iff it has at most one period and at
least one digit — in particular `float "."` raises `ValueError`, modelled as
`none`.  Binary floating-point rounding is abstracted by exact rational
arithmetic, which agrees with the source on the integer results of every
count string at issue in the claims. -/
def pyFloatOfDigitsDots (s : Str) : Option (Nat × Nat) :=
  if s.count '.' ≤ 1 ∧ s.any Char.isDigit then
    let ipart := s.takeWhile (fun c => c != '.')
    let frac := (s.drop ipart.length).drop 1
    some (natOfDigits (ipart ++ frac), 10 ^ frac.length)
  else none

/-- Leftmost maximal run of `[\d\.]` characters in `s`, the group found by
`re.search(r"[\d\.]+", s)` in `parse_count`, or `none` when there is none. -/
def firstDigitDotRun (s : Str) : Option Str :=
  match s.dropWhile (fun c => !isDigitDot c) with
  | [] => none
  | rest => some (rest.takeWhile isDigitDot)

/-- Embedding of `parse_count` (ig_free.py lines 14–38).  The normalisation
strips and lowercases the text and removes commas and spaces; then
`re.match(r"([\d\.]+)([km])?", t)` succeeds iff the first character is in
`[\d\.]`, its first group being the maximal leading `[\d\.]` run and the
optional suffix the immediately following `k`/`m`; on no match,
`re.search(r"[\d\.]+", t)` finds the leftmost such run anywhere.  The
captured run is fed to `float`, whose `ValueError` (uncaught in the source)
is modelled as `Except.error ()`; `int` truncation of the non-negative scaled
value is natural-number division. -/
def parseCount (text : Str) : Except Unit Int :=
  if text = [] then Except.ok 0 else
  let t := ((stripStr text).map pyLower).filter (fun c => c != ',' && c != ' ')
  let run := t.takeWhile isDigitDot
  if run = [] then
    match firstDigitDotRun t with
    | none => Except.ok 0
    | some run2 =>
      match pyFloatOfDigitsDots run2 with
      | none => Except.error ()
      | some (n, d) => Except.ok (Int.ofNat (n / d))
  else
    match pyFloatOfDigitsDots run with
    | none => Except.error ()
    | some (n, d) =>
      let factor : Nat :=
        match (t.drop run.length).head? with
        | some 'k' => 1000
        | some 'm' => 1000000
        | _ => 1
      Except.ok (Int.ofNat ((n * factor) / d))

/-- Python `bio.replace("\\n", " ")` — the two-character literal
backslash-`n` replaced by a space, left-to-right, non-overlapping. -/
def replaceBackslashN : Str → Str
  | [] => []
  | [c] => [c]
  | c1 :: c2 :: rest =>
    if c1 = '\\' ∧ c2 = 'n' then ' ' :: replaceBackslashN rest
    else c1 :: replaceBackslashN (c2 :: rest)

/-- Python `bio.replace("\n", " ")`, a single-character substitution. -/
def nlToSpace (c : Char) : Char := if c = '\n' then ' ' else c

/-- Embedding of `clean_biography` (ig_free.py lines 40–59): collapse literal
and real newlines to spaces, strip, then optionally drop every code point
at or above 128. -/
def cleanBiography (bio : Str) (asciiOnly : Bool := true) : Str :=
  if bio = [] then [] else
  let b1 := replaceBackslashN bio
  let b2 := b1.map nlToSpace
  let b3 := stripStr b2
  if asciiOnly then b3.filter (fun c => decide (c.toNat < 128)) else b3

/-- Leftmost-match search: `scanFirst f i fuel` returns the first `some`
among `f i, f (i+1), …` within `fuel` attempts — the position discipline of
`re.search`. -/
def scanFirst (f : Nat → Option α) : Nat → Nat → Option α
  | _, 0 => none
  | i, fuel + 1 =>
    match f i with
    | some v => some v
    | none => scanFirst f (i + 1) fuel

/-- Greedy alternative: the first `some` among `f (n-1), …, f 0` — the
longest-first backtracking order of a greedy character-class star. -/
def lastSomeBelow (f : Nat → Option α) : Nat → Option α
  | 0 => none
  | n + 1 =>
    match f n with
    | some v => some v
    | none => lastSomeBelow f n

/-- Literal matcher: consume `lit` from the front of `s`. -/
def matchLit (lit s : Str) : Option Str :=
  if lit.isPrefixOf s then some (s.drop lit.length) else none

/-- Single-character matcher. -/
def expectChar (c : Char) : Str → Option Str
  | [] => none
  | x :: r => if x = c then some r else none

/-- Python substring containment `needle in hay`. -/
def containsSub (needle hay : Str) : Bool :=
  (List.range (hay.length + 1)).any (fun i => needle.isPrefixOf (hay.drop i))

/-- Tail `"count"\s*:\s*(\d+)` of the tier-2 count patterns: returns the
greedily captured digit run. -/
def tryCountTail (s : Str) : Option Str :=
  (matchLit "\"count\"".data s).bind fun r1 =>
  (expectChar ':' (dropLeadingWs r1)).bind fun r2 =>
  let r3 := dropLeadingWs r2
  let ds := r3.takeWhile Char.isDigit
  if ds = [] then none else some ds

/-- The part after the opening brace of the count patterns: a greedy
`[^\x7d]*` then the count tail.  The greedy star tries the longest
brace-free consumption first and backtracks, and nothing the tail matches
can contain a closing brace, so a successful tail at offset `i` needs
exactly `w.take i` to be brace-free: the pattern captures the digits of the
last count tail inside the brace-free window. -/
def countInWindow (w : Str) : Option Str :=
  let span := (w.takeWhile (fun c => c != '\x7d')).length
  lastSomeBelow (fun i => tryCountTail (w.drop i)) (span + 1)

/-- One anchored attempt of the tier-2 pattern
`key\s*:\s*\x7b[^\x7d]*"count"\s*:\s*(\d+)` at position `i` of `html`. -/
def tryKeyCountAt (key html : Str) (i : Nat) : Option Str :=
  (matchLit key (html.drop i)).bind fun r1 =>
  (expectChar ':' (dropLeadingWs r1)).bind fun r2 =>
  (expectChar '\x7b' (dropLeadingWs r2)).bind fun w =>
  countInWindow w

/-- `re.search` of the tier-2 count pattern for `key`. -/
def searchKeyCount (key html : Str) : Option Str :=
  scanFirst (tryKeyCountAt key html) 0 (html.length + 1)

/-- Tier-2 posts-count scan (ig_free.py lines 301–305). -/
def searchPostsCount (html : Str) : Option Str :=
  searchKeyCount "\"edge_owner_to_timeline_media\"".data html

/-- Tier-2 followers-count scan (ig_free.py lines 310–314). -/
def searchFollowersCount (html : Str) : Option Str :=
  searchKeyCount "\"edge_followed_by\"".data html

/-- One anchored attempt of the tier-2 biography pattern
`"biography"\s*:\s*"([^"]*)"\s*,\s*"blocked_by_viewer"`; the starred group
stops at the first quote, so no backtracking arises. -/
def tryBioAt (html : Str) (i : Nat) : Option Str :=
  (matchLit "\"biography\"".data (html.drop i)).bind fun r1 =>
  (expectChar ':' (dropLeadingWs r1)).bind fun r2 =>
  (expectChar '"' (dropLeadingWs r2)).bind fun r3 =>
  let grp := r3.takeWhile (fun c => c != '"')
  (expectChar '"' (r3.drop grp.length)).bind fun r4 =>
  (expectChar ',' (dropLeadingWs r4)).bind fun r5 =>
  (matchLit "\"blocked_by_viewer\"".data (dropLeadingWs r5)).map fun _ => grp

/-- Tier-2 biography scan (ig_free.py lines 331–335). -/
def searchBioBlocked (html : Str) : Option Str :=
  scanFirst (tryBioAt html) 0 (html.length + 1)

/-- Resolution strategy-1 pattern `\(@([^)]+)\)` tried at position `i`: an
at-sign in parentheses; the group is the maximal run of non-`)` characters
(backtracking cannot help since every shorter run is followed by a
non-`)` character). -/
def tryParenAt (s : Str) (i : Nat) : Option Str :=
  match s.drop i with
  | '(' :: '@' :: r =>
    let run := r.takeWhile (fun c => c != ')')
    if run ≠ [] ∧ (r.drop run.length).head? = some ')' then some run else none
  | _ => none

/-- `re.search(r"\(@([^)]+)\)", s)` (ig_free.py line 161). -/
def searchParenHandle (s : Str) : Option Str :=
  scanFirst (tryParenAt s) 0 (s.length + 1)

/-- Matches `"username"\s*:\s*"([^"]+)"` at offset `i` of `s`, returning the
captured group and the text after the closing quote. -/
def tryUsernameValueAt (s : Str) (i : Nat) : Option (Str × Str) :=
  (matchLit "\"username\"".data (s.drop i)).bind fun r1 =>
  (expectChar ':' (dropLeadingWs r1)).bind fun r2 =>
  (expectChar '"' (dropLeadingWs r2)).bind fun r3 =>
  let run := r3.takeWhile (fun c => c != '"')
  if run ≠ [] ∧ (r3.drop run.length).head? = some '"' then
    some (run, r3.drop (run.length + 1))
  else none

/-- Resolution strategy-2 pattern
`"owner"\s*:\s*\x7b.*?"username"\s*:\s*"([^"]+)"` (with `re.DOTALL`) tried
at `i`: the reluctant `.*?` expands one character at a time, so the first
offset whose username tail matches wins. -/
def tryOwnerAt (html : Str) (i : Nat) : Option Str :=
  (matchLit "\"owner\"".data (html.drop i)).bind fun r1 =>
  (expectChar ':' (dropLeadingWs r1)).bind fun r2 =>
  (expectChar '\x7b' (dropLeadingWs r2)).bind fun r3 =>
  (scanFirst (tryUsernameValueAt r3) 0 (r3.length + 1)).map Prod.fst

/-- `re.search` of the strategy-2 pattern (ig_free.py lines 167–171). -/
def searchOwnerUsername (html : Str) : Option Str :=
  scanFirst (tryOwnerAt html) 0 (html.length + 1)

/-- Resolution strategy-3 pattern
`"username"\s*:\s*"([^"]+)"\s*,\s*"is_verified"` tried at `i`. -/
def tryUserVerifiedAt (html : Str) (i : Nat) : Option Str :=
  (tryUsernameValueAt html i).bind fun rv =>
  (expectChar ',' (dropLeadingWs rv.2)).bind fun r4 =>
  (matchLit "\"is_verified\"".data (dropLeadingWs r4)).map fun _ => rv.1

/-- `re.search` of the strategy-3 pattern (ig_free.py lines 177–181). -/
def searchUsernameVerified (html : Str) : Option Str :=
  scanFirst (tryUserVerifiedAt html) 0 (html.length + 1)

/-- The login-surface check performed after every navigation:
`"accounts/login" in page.url or "/accounts/login" in html`. -/
def loginCheck (url html : Str) : Bool :=
  containsSub "accounts/login".data url || containsSub "/accounts/login".data html

/-- The data of a successfully navigated post page. -/
structure PostPage where
  pageUrl : Str
  html : Str
  /-- Value of the `content` attribute of the `og:description` meta element
  after the source applies `(… or "")`; `none` when the element is absent. -/
  ogDescription : Option Str

/-- Outcome of opening a post URL. -/
inductive PostOutcome where
  | gotoTimeout
  | loaded (p : PostPage)

/-- Embedding of `extract_username_from_post` (ig_free.py lines 132–194):
timeout and login surface give `""`; otherwise strategies 1–3 run in order,
each consulted only while the username is still empty, each result
stripped. -/
def extractUsernameFromPost (o : PostOutcome) : Str :=
  match o with
  | .gotoTimeout => []
  | .loaded p =>
    if loginCheck p.pageUrl p.html then [] else
    let u1 : Str :=
      match p.ogDescription with
      | none => []
      | some c =>
        match searchParenHandle (stripStr c) with
        | some g => stripStr g
        | none => []
    let u2 : Str :=
      if u1 ≠ [] then u1 else
      match searchOwnerUsername p.html with
      | some g => stripStr g
      | none => []
    if u2 ≠ [] then u2 else
    match searchUsernameVerified p.html with
    | some g => stripStr g
    | none => []

/-- Structured user object returned by the tier-1 in-page API call, when the
response parsed and `data.user` was truthy (a non-empty dict). -/
structure ApiUser where
  /-- `user["edge_owner_to_timeline_media"]["count"]`; `none` when the key
  chain is missing (Python `None`). -/
  postsCount : Option Int
  /-- `user["edge_followed_by"]["count"]`; `none` when missing. -/
  followersCount : Option Int
  /-- `user.get("biography", "")`: a missing key arrives as `some []`, an
  explicit JSON `null` as `none`. -/
  biography : Option Str

/-- The data of a successfully navigated profile page. -/
structure ProfilePage where
  pageUrl : Str
  html : Str
  /-- `none` models every tier-1 failure: fetch/evaluate error, non-dict or
  `__error` response, and an absent/empty/null user object. -/
  apiUser : Option ApiUser
  /-- Inner text of the first bio element found by the three tier-3 DOM
  probes, `none` when none matches (or the DOM query raised). -/
  domBio : Option Str

/-- Outcome of opening a profile URL. -/
inductive ProfileOutcome where
  | gotoTimeout
  | loaded (p : ProfilePage)

/-- Python dict with string keys and string values, as an association list
in insertion order. -/
abbrev PyDict := List (String × Str)

/-- Python dict assignment `d[k] = v`: replaces the value at an existing key
in place, appends otherwise. -/
def dset : PyDict → String → Str → PyDict
  | [], k, v => [(k, v)]
  | (k0, v0) :: rest, k, v =>
    if k0 = k then (k, v) :: rest else (k0, v0) :: dset rest k v

/-- Python dict lookup. -/
def dget (d : PyDict) (k : String) : Option Str :=
  (d.find? (fun kv => kv.1 == k)).map (·.2)

/-- The keys of a dict, in order. -/
def dkeys (d : PyDict) : List String := d.map (·.1)

/-- The record initialised at the top of `scrape_profile_info`
(ig_free.py lines 214–220). -/
def profileInitData (username : Str) : PyDict :=
  [("username", username),
   ("profile_url", "https://www.instagram.com/".data ++ username ++ "/".data),
   ("postsCount", []),
   ("followersCount", []),
   ("biography", [])]

/-- The invalid/404 page-marker check (ig_free.py line 235). -/
def notFoundCheck (html : Str) : Bool :=
  containsSub "Sorry, this page isn\x27t available".data html ||
  containsSub "Page Not Found".data html

/-- Tier 1: fill fields from the API user object — `str` of each present
count, `clean_biography` of a non-null biography (ig_free.py lines 274–283). -/
def tier1Fill (u : ApiUser) (d : PyDict) : PyDict :=
  let d1 := match u.postsCount with
            | some n => dset d "postsCount" (toString n).data
            | none => d
  let d2 := match u.followersCount with
            | some n => dset d1 "followersCount" (toString n).data
            | none => d1
  match u.biography with
  | some b => dset d2 "biography" (cleanBiography b true)
  | none => d2

/-- Tier 2: the three fallback text scans, each filling only a still-empty
(falsy) field (ig_free.py lines 298–340). -/
def tier2Fill (html : Str) (d : PyDict) : PyDict :=
  let d1 := match searchPostsCount html with
            | some ds =>
              if dget d "postsCount" = some [] then dset d "postsCount" ds else d
            | none => d
  let d2 := match searchFollowersCount html with
            | some ds =>
              if dget d1 "followersCount" = some [] then dset d1 "followersCount" ds else d1
            | none => d1
  if dget d2 "biography" = some [] then
    match searchBioBlocked html with
    | some b => dset d2 "biography" (cleanBiography b true)
    | none => d2
  else d2

/-- Tier 3: the DOM bio probes, only when the biography is still empty
(ig_free.py lines 343–355). -/
def tier3Fill (domBio : Option Str) (d : PyDict) : PyDict :=
  if dget d "biography" = some [] then
    match domBio with
    | some t => dset d "biography" (cleanBiography t true)
    | none => d
  else d

/-- Embedding of `scrape_profile_info` (ig_free.py lines 198–357).  Timeout,
login surface and not-found pages return the initial record; a truthy tier-1
user marks the extraction API-sourced, skipping tier 2 entirely; tier 3 runs
whenever the biography is still empty. -/
def scrapeProfileInfo (username : Str) (o : ProfileOutcome) : PyDict :=
  let data := profileInitData username
  match o with
  | .gotoTimeout => data
  | .loaded p =>
    if loginCheck p.pageUrl p.html then data else
    if notFoundCheck p.html then data else
    match p.apiUser with
    | some u => tier3Fill p.domBio (tier1Fill u data)
    | none => tier3Fill p.domBio (tier2Fill p.html data)

/-- Anchor-to-URL normalisation of the discovery loop
(ig_free.py lines 104–107). -/
def processHref (href : Str) : Str :=
  if "http".data.isPrefixOf href then href
  else "https://www.instagram.com".data ++ href

/-- Python `set.add` on the insertion-ordered list model of `post_urls`. -/
def setAdd (acc : List Str) (x : Str) : List Str :=
  if x ∈ acc then acc else acc ++ [x]

/-- One harvest pass over the currently visible anchors: skip `None` or
empty hrefs and those without `/p/`, normalise and add the rest
(ig_free.py lines 98–109). -/
def harvest (acc : List Str) : List (Option Str) → List Str
  | [] => acc
  | a :: rest =>
    match a with
    | none => harvest acc rest
    | some h =>
      if h = [] ∨ ¬ containsSub "/p/".data h then harvest acc rest
      else harvest (setAdd acc (processHref h)) rest

/-- The scroll loop of `scrape_hashtag_posts`: while the set is below
`maxPosts` and scroll budget remains, harvest iteration `scrolls`, stop
early on reaching `maxPosts`, else scroll on; `fuel` stands for
`max_scrolls - scrolls`. -/
def hashtagLoop (anchors : Nat → List (Option Str)) (maxPosts : Nat) :
    Nat → Nat → List Str → List Str
  | _, 0, acc => acc
  | scrolls, fuel + 1, acc =>
    if acc.length < maxPosts then
      let acc2 := harvest acc (anchors scrolls)
      if maxPosts ≤ acc2.length then acc2
      else hashtagLoop anchors maxPosts (scrolls + 1) fuel acc2
    else acc

/-- Inputs of one discovery run: the login-surface signal, whether the
initial post-link selector appeared, and the anchors visible at each scroll
iteration (`none` models a `None` href attribute). -/
structure HashtagInput where
  loginSurface : Bool
  selectorFound : Bool
  anchors : Nat → List (Option Str)

/-- Embedding of `scrape_hashtag_posts` (ig_free.py lines 62–127); the pause
duration does not influence the collected data and is not modelled. -/
def scrapeHashtagPosts (inp : HashtagInput) (maxPosts maxScrolls : Nat) : List Str :=
  if inp.loginSurface then [] else
  if !inp.selectorFound then [] else
  (hashtagLoop inp.anchors maxPosts 0 maxScrolls []).take maxPosts

/-- All anchor hrefs observed across every harvest iteration of one run
(`None` attributes skipped). -/
def observedAnchors (inp : HashtagInput) (maxScrolls : Nat) : List Str :=
  ((List.range maxScrolls).map (fun i => (inp.anchors i).filterMap id)).flatten

/-- The allow-list character class `[A-Za-z0-9._]` of the username filter in
`main`. -/
def isAllowedUsernameChar (c : Char) : Bool :=
  c.isAlpha || c.isDigit || c == '.' || c == '_'

/-- `re.match(r"^[A-Za-z0-9._]+$", u)` as a Boolean: the greedy plus takes
the maximal allowed run (leaving `u.dropWhile isAllowedUsernameChar`), and
`$` (without `re.MULTILINE`) matches at the end of the string or just before
a newline at the end of the string; since the class excludes the newline,
backtracking to a shorter run cannot help. -/
def usernameRegexAccepts (u : Str) : Bool :=
  let rest := u.dropWhile isAllowedUsernameChar
  decide (1 ≤ (u.takeWhile isAllowedUsernameChar).length) &&
    (decide (rest = []) || decide (rest = ['\n']))

/-- The guard `if username and re.match(r"^[A-Za-z0-9._]+$", username)` of
`main` (ig_free.py line 462). -/
def usernameFilterAccepts (u : Str) : Bool :=
  !u.isEmpty && usernameRegexAccepts u

/-- The five keys of every profile record, in insertion order. -/
def profileKeys : List String :=
  ["username", "profile_url", "postsCount", "followersCount", "biography"]

/-! ## Lemmas about the biography normalisation -/

/-- No literal backslash-`n` pair occurs in `s`. -/
def noBackslashN : Str → Bool
  | [] => true
  | c :: rest =>
    (!(decide (c = '\\') && decide (rest.head? = some 'n'))) && noBackslashN rest

theorem head?_replaceBackslashN : ∀ t : Str, (replaceBackslashN t).head? = some 'n' → t.head? = some 'n'
  | [] => by simp [replaceBackslashN]
  | [c] => by simp [replaceBackslashN]
  | c1 :: c2 :: rest => by
    simp only [replaceBackslashN]
    split
    · intro h
      simp at h
    · intro h
      simpa using h

theorem noBackslashN_replaceBackslashN : ∀ s : Str, noBackslashN (replaceBackslashN s) = true
  | [] => rfl
  | [c] => by simp [replaceBackslashN, noBackslashN]
  | c1 :: c2 :: rest => by
    simp only [replaceBackslashN]
    split
    · have ih := noBackslashN_replaceBackslashN rest
      simp [noBackslashN, ih]
    · rename_i hbn
      have ih := noBackslashN_replaceBackslashN (c2 :: rest)
      simp only [noBackslashN, ih, Bool.and_true, Bool.not_eq_eq_eq_not, Bool.not_true,
        Bool.and_eq_false_imp, decide_eq_true_eq, decide_eq_false_iff_not]
      intro hc1 hn
      exact hbn ⟨hc1, by simpa using head?_replaceBackslashN (c2 :: rest) hn⟩

theorem replaceBackslashN_eq_self : ∀ s : Str, noBackslashN s = true → replaceBackslashN s = s
  | [], _ => rfl
  | [c], _ => rfl
  | c1 :: c2 :: rest, h => by
    simp only [noBackslashN, Bool.and_eq_true, Bool.not_eq_eq_eq_not, Bool.not_true,
      Bool.and_eq_false_imp, decide_eq_true_eq, decide_eq_false_iff_not] at h
    obtain ⟨h1, h2⟩ := h
    simp only [replaceBackslashN]
    split
    · rename_i hbn
      exact absurd (by simpa using hbn.2) (h1 hbn.1)
    · rw [replaceBackslashN_eq_self (c2 :: rest) (by
        simp only [noBackslashN, Bool.and_eq_true, Bool.not_eq_eq_eq_not, Bool.not_true,
          Bool.and_eq_false_imp, decide_eq_true_eq, decide_eq_false_iff_not]
        exact h2)]

theorem nlToSpace_ne_nl (c : Char) : nlToSpace c ≠ '\n' := by
  unfold nlToSpace
  split <;> simp_all

theorem nlToSpace_eq_backslash {c : Char} (h : nlToSpace c = '\\') : c = '\\' := by
  unfold nlToSpace at h
  split at h <;> simp_all

theorem nlToSpace_eq_n {c : Char} (h : nlToSpace c = 'n') : c = 'n' := by
  unfold nlToSpace at h
  split at h <;> simp_all

theorem noBackslashN_map_nlToSpace :
    ∀ s : Str, noBackslashN s = true → noBackslashN (s.map nlToSpace) = true
  | [], _ => rfl
  | c :: rest, h => by
    simp only [noBackslashN, Bool.and_eq_true, Bool.not_eq_eq_eq_not, Bool.not_true,
      Bool.and_eq_false_imp, decide_eq_true_eq, decide_eq_false_iff_not] at h ⊢
    obtain ⟨h1, h2⟩ := h
    refine ⟨?_, by simpa using noBackslashN_map_nlToSpace rest h2⟩
    intro hc hn
    rw [List.head?_map] at hn
    rcases hmap : rest.head? with _ | a <;> rw [hmap] at hn
    · simp at hn
    · simp only [Option.map_some'] at hn
      have ha : a = 'n' := nlToSpace_eq_n (Option.some.inj hn)
      exact h1 (nlToSpace_eq_backslash hc) (by rw [hmap, ha])

theorem noBackslashN_dropWhile (p : Char → Bool) :
    ∀ s : Str, noBackslashN s = true → noBackslashN (s.dropWhile p) = true
  | [], _ => rfl
  | c :: rest, h => by
    obtain ⟨h1, h2⟩ : _ ∧ noBackslashN rest = true := by
      simpa only [noBackslashN, Bool.and_eq_true] using h
    rw [List.dropWhile_cons]
    split
    · exact noBackslashN_dropWhile p rest h2
    · exact h

theorem head?_dropTrailingWs : ∀ s : Str, ∀ a : Char, (dropTrailingWs s).head? = some a → s.head? = some a
  | [], a => by simp [dropTrailingWs]
  | c :: rest, a => by
    simp only [dropTrailingWs]
    split
    · intro h
      simp at h
    · intro h
      simpa using h

theorem noBackslashN_dropTrailingWs :
    ∀ s : Str, noBackslashN s = true → noBackslashN (dropTrailingWs s) = true
  | [], _ => rfl
  | c :: rest, h => by
    simp only [noBackslashN, Bool.and_eq_true, Bool.not_eq_eq_eq_not, Bool.not_true,
      Bool.and_eq_false_imp, decide_eq_true_eq, decide_eq_false_iff_not] at h
    obtain ⟨h1, h2⟩ := h
    simp only [dropTrailingWs]
    split
    · rfl
    · simp only [noBackslashN, Bool.and_eq_true, Bool.not_eq_eq_eq_not, Bool.not_true,
        Bool.and_eq_false_imp, decide_eq_true_eq, decide_eq_false_iff_not]
      refine ⟨?_, by simpa using noBackslashN_dropTrailingWs rest h2⟩
      intro hc hn
      exact absurd (head?_dropTrailingWs rest 'n' (by simpa using hn)) (by simpa using h1 hc)

theorem head?_dropWhile_false (p : Char → Bool) :
    ∀ s : Str, ∀ a : Char, (s.dropWhile p).head? = some a → p a = false
  | [], a => by simp
  | c :: rest, a => by
    rw [List.dropWhile_cons]
    split
    · exact head?_dropWhile_false p rest a
    · rename_i hpc
      intro h
      simp only [List.head?_cons, Option.some.injEq] at h
      subst h
      simpa using hpc

theorem dropWhile_eq_self_of_head (p : Char → Bool) (s : Str)
    (h : ∀ a : Char, s.head? = some a → p a = false) : s.dropWhile p = s := by
  cases s with
  | nil => rfl
  | cons c rest =>
    rw [List.dropWhile_cons, if_neg]
    simp [h c rfl]

theorem dropTrailingWs_idem : ∀ s : Str, dropTrailingWs (dropTrailingWs s) = dropTrailingWs s
  | [] => rfl
  | c :: rest => by
    simp only [dropTrailingWs]
    split
    · rfl
    · rename_i hcond
      simp only [dropTrailingWs, dropTrailingWs_idem rest]
      rw [if_neg hcond]

theorem stripStr_head_not_ws (s : Str) (a : Char) (h : (stripStr s).head? = some a) :
    isPySpaceChar a = false :=
  head?_dropWhile_false isPySpaceChar s a (head?_dropTrailingWs (dropLeadingWs s) a h)

theorem stripStr_idem (s : Str) : stripStr (stripStr s) = stripStr s := by
  have h1 : dropLeadingWs (stripStr s) = stripStr s :=
    dropWhile_eq_self_of_head isPySpaceChar (stripStr s) (stripStr_head_not_ws s)
  show dropTrailingWs (dropLeadingWs (stripStr s)) = stripStr s
  rw [h1]
  exact dropTrailingWs_idem (dropLeadingWs s)

theorem mem_dropTrailingWs : ∀ s : Str, ∀ c ∈ dropTrailingWs s, c ∈ s
  | [], c => by simp [dropTrailingWs]
  | a :: rest, c => by
    simp only [dropTrailingWs]
    split
    · intro h
      simp at h
    · intro h
      rcases List.mem_cons.mp h with h | h
      · simp [h]
      · exact List.mem_cons_of_mem a (mem_dropTrailingWs rest c h)

theorem mem_stripStr (s : Str) (c : Char) (h : c ∈ stripStr s) : c ∈ s :=
  (List.dropWhile_sublist isPySpaceChar).subset (mem_dropTrailingWs (dropLeadingWs s) c h)

theorem mem_replaceBackslashN : ∀ s : Str, ∀ c ∈ replaceBackslashN s, c ∈ s ∨ c = ' '
  | [], c => by simp [replaceBackslashN]
  | [a], c => by
    simp only [replaceBackslashN]
    intro h
    exact Or.inl h
  | a1 :: a2 :: rest, c => by
    simp only [replaceBackslashN]
    split
    · intro h
      rcases List.mem_cons.mp h with h | h
      · exact Or.inr h
      · rcases mem_replaceBackslashN rest c h with h | h
        · exact Or.inl (by simp [h])
        · exact Or.inr h
    · intro h
      rcases List.mem_cons.mp h with h | h
      · exact Or.inl (by simp [h])
      · rcases mem_replaceBackslashN (a2 :: rest) c h with h | h
        · exact Or.inl (List.mem_cons_of_mem a1 h)
        · exact Or.inr h

theorem mem_map_nlToSpace (s : Str) (c : Char) (h : c ∈ s.map nlToSpace) : c ∈ s ∨ c = ' ' := by
  obtain ⟨a, ha, rfl⟩ := List.mem_map.mp h
  unfold nlToSpace
  split
  · exact Or.inr rfl
  · exact Or.inl ha

theorem map_nlToSpace_eq_self (s : Str) (h : ∀ c ∈ s, c ≠ '\n') : s.map nlToSpace = s := by
  induction s with
  | nil => rfl
  | cons c rest ih =>
    rw [List.map_cons, ih (fun x hx => h x (List.mem_cons_of_mem c hx))]
    have : nlToSpace c = c := by
      unfold nlToSpace
      rw [if_neg (h c (List.mem_cons_self c rest))]
    rw [this]

/-- Unfolded form of the normalisation with the ASCII flag off. -/
theorem cleanBiography_false_eq (s : Str) :
    cleanBiography s false =
      if s = [] then [] else stripStr ((replaceBackslashN s).map nlToSpace) := rfl

/-- Unfolded form of the normalisation with the ASCII flag on. -/
theorem cleanBiography_true_eq (s : Str) :
    cleanBiography s true =
      if s = [] then []
      else (stripStr ((replaceBackslashN s).map nlToSpace)).filter
        (fun c => decide (c.toNat < 128)) := rfl

/-- Characters of `cleanBiography s false` come from `s` or are spaces. -/
theorem mem_cleanBiography_false (s : Str) (c : Char) (h : c ∈ cleanBiography s false) :
    c ∈ s ∨ c = ' ' := by
  by_cases hsrc : s = []
  · subst hsrc
    simp [cleanBiography_false_eq] at h
  · rw [cleanBiography_false_eq, if_neg hsrc] at h
    rcases mem_map_nlToSpace _ c (mem_stripStr _ c h) with h2 | h2
    · exact mem_replaceBackslashN s c h2
    · exact Or.inr h2

/-- The normalisation with the ASCII flag off is idempotent. -/
theorem cleanBiography_false_fixed (s : Str) :
    cleanBiography (cleanBiography s false) false = cleanBiography s false := by
  by_cases hsrc : s = []
  · subst hsrc
    rfl
  · set o := cleanBiography s false with ho
    have hform : o = stripStr ((replaceBackslashN s).map nlToSpace) := by
      rw [ho, cleanBiography_false_eq, if_neg hsrc]
    by_cases hne : o = []
    · rw [hne]
      rfl
    · have hnoBN : noBackslashN o = true := by
        rw [hform]
        exact noBackslashN_dropTrailingWs _ (noBackslashN_dropWhile _ _
          (noBackslashN_map_nlToSpace _ (noBackslashN_replaceBackslashN s)))
      have hnoNl : ∀ a ∈ o, a ≠ '\n' := by
        intro a ha
        rw [hform] at ha
        obtain ⟨x, _, rfl⟩ := List.mem_map.mp (mem_stripStr _ a ha)
        exact nlToSpace_ne_nl x
      rw [cleanBiography_false_eq, if_neg hne, replaceBackslashN_eq_self o hnoBN,
        map_nlToSpace_eq_self o hnoNl, hform, stripStr_idem]

/-- With the ASCII flag on and an all-ASCII input, the flag does nothing. -/
theorem cleanBiography_true_eq_false (s : Str) (h : ∀ c ∈ s, c.toNat < 128) :
    cleanBiography s true = cleanBiography s false := by
  by_cases hsrc : s = []
  · subst hsrc
    rfl
  · rw [cleanBiography_true_eq, cleanBiography_false_eq, if_neg hsrc, if_neg hsrc]
    apply List.filter_eq_self.mpr
    intro a ha
    rcases mem_map_nlToSpace _ a (mem_stripStr _ a ha) with h2 | h2
    · rcases mem_replaceBackslashN s a h2 with h3 | h3
      · simpa using h a h3
      · subst h3
        decide
    · subst h2
      decide

/-! ## Lemmas about the discovery loop -/

theorem setAdd_nodup (acc : List Str) (x : Str) (h : acc.Nodup) : (setAdd acc x).Nodup := by
  unfold setAdd
  split
  · exact h
  · rename_i hx
    refine List.nodup_append.mpr ⟨h, List.nodup_singleton x, ?_⟩
    intro a ha hax
    rw [List.mem_singleton] at hax
    subst hax
    exact hx ha

theorem mem_setAdd (acc : List Str) (x y : Str) (h : y ∈ setAdd acc x) : y ∈ acc ∨ y = x := by
  unfold setAdd at h
  split at h
  · exact Or.inl h
  · rcases List.mem_append.mp h with h | h
    · exact Or.inl h
    · exact Or.inr (List.mem_singleton.mp h)

theorem harvest_invariant (pool : List Str) :
    ∀ (ans : List (Option Str)) (acc : List Str),
      acc.Nodup → (∀ y ∈ acc, y ∈ pool) →
      (∀ h : Str, some h ∈ ans → processHref h ∈ pool) →
      (harvest acc ans).Nodup ∧ ∀ y ∈ harvest acc ans, y ∈ pool
  | [], acc, hnd, hsub, _ => ⟨hnd, hsub⟩
  | none :: rest, acc, hnd, hsub, hans => by
    simp only [harvest]
    exact harvest_invariant pool rest acc hnd hsub
      (fun h hh => hans h (List.mem_cons_of_mem _ hh))
  | some h :: rest, acc, hnd, hsub, hans => by
    simp only [harvest]
    split
    · exact harvest_invariant pool rest acc hnd hsub
        (fun h2 hh => hans h2 (List.mem_cons_of_mem _ hh))
    · refine harvest_invariant pool rest (setAdd acc (processHref h)) (setAdd_nodup _ _ hnd)
        ?_ (fun h2 hh => hans h2 (List.mem_cons_of_mem _ hh))
      intro y hy
      rcases mem_setAdd _ _ _ hy with hy | hy
      · exact hsub y hy
      · subst hy
        exact hans h (List.mem_cons_self _ _)

theorem hashtagLoop_invariant (anchors : Nat → List (Option Str)) (maxPosts : Nat)
    (pool : List Str) :
    ∀ (fuel scrolls : Nat) (acc : List Str),
      acc.Nodup → (∀ y ∈ acc, y ∈ pool) →
      (∀ j, j < fuel → ∀ h : Str, some h ∈ anchors (scrolls + j) → processHref h ∈ pool) →
      (hashtagLoop anchors maxPosts scrolls fuel acc).Nodup ∧
        ∀ y ∈ hashtagLoop anchors maxPosts scrolls fuel acc, y ∈ pool
  | 0, _, acc, hnd, hsub, _ => ⟨hnd, hsub⟩
  | fuel + 1, scrolls, acc, hnd, hsub, hanch => by
    simp only [hashtagLoop]
    split
    · have hh := harvest_invariant pool (anchors scrolls) acc hnd hsub
        (fun h hmem => hanch 0 (Nat.succ_pos fuel) h (by simpa using hmem))
      split
      · exact hh
      · refine hashtagLoop_invariant anchors maxPosts pool fuel (scrolls + 1) _ hh.1 hh.2 ?_
        intro j hj h hmem
        refine hanch (j + 1) (Nat.succ_lt_succ hj) h ?_
        have harith : scrolls + 1 + j = scrolls + (j + 1) := by omega
        rw [← harith]
        exact hmem
    · exact ⟨hnd, hsub⟩

/-! ## Lemmas about the profile record -/

theorem dget_dset_self : ∀ (d : PyDict) (k : String) (v : Str), dget (dset d k v) k = some v
  | [], k, v => by simp [dset, dget]
  | (k0, v0) :: rest, k, v => by
    simp only [dset]
    split
    · simp [dget]
    · rename_i hne
      simp only [dget, List.find?]
      rw [show (k0 == k) = false by simpa using hne]
      exact dget_dset_self rest k v

theorem dget_dset_ne : ∀ (d : PyDict) (k k2 : String) (v : Str), k2 ≠ k →
    dget (dset d k v) k2 = dget d k2
  | [], k, k2, v, h => by
    simp only [dset, dget, List.find?]
    rw [show (k == k2) = false by simpa using fun he => h (he.symm)]
  | (k0, v0) :: rest, k, k2, v, h => by
    simp only [dset]
    split
    · rename_i he
      subst he
      simp only [dget, List.find?]
      rw [show (k0 == k2) = false by simpa using fun he => h (he.symm)]
    · simp only [dget, List.find?]
      cases hb : k0 == k2
      · exact dget_dset_ne rest k k2 v h
      · rfl

theorem dkeys_cons (k0 : String) (v0 : Str) (rest : PyDict) :
    dkeys ((k0, v0) :: rest) = k0 :: dkeys rest := rfl

theorem dkeys_dset_mem : ∀ (d : PyDict) (k : String) (v : Str), k ∈ dkeys d →
    dkeys (dset d k v) = dkeys d
  | [], k, v, h => by simp [dkeys] at h
  | (k0, v0) :: rest, k, v, h => by
    simp only [dset]
    split
    · rename_i he
      rw [dkeys_cons, dkeys_cons, he]
    · rename_i hne
      have hmem : k ∈ dkeys rest := by
        rw [dkeys_cons, List.mem_cons] at h
        rcases h with h | h
        · exact absurd h.symm hne
        · exact h
      rw [dkeys_cons, dkeys_cons, dkeys_dset_mem rest k v hmem]

theorem dget_isSome_of_mem_dkeys : ∀ (d : PyDict) (k : String), k ∈ dkeys d →
    (dget d k).isSome = true
  | [], k, h => by simp [dkeys] at h
  | (k0, v0) :: rest, k, h => by
    simp only [dget, List.find?]
    cases hb : k0 == k
    · apply dget_isSome_of_mem_dkeys rest k
      simp only [dkeys, List.map_cons, List.mem_cons] at h
      rcases h with h | h
      · exact absurd h.symm (by simpa using hb)
      · exact h
    · rfl

theorem dkeys_dset_of_keys (d : PyDict) (k : String) (v : Str) (h : dkeys d = profileKeys)
    (hk : k ∈ profileKeys) : dkeys (dset d k v) = profileKeys := by
  rw [dkeys_dset_mem d k v (by rw [h]; exact hk), h]

theorem dkeys_tier1 (au : ApiUser) (d : PyDict) (h : dkeys d = profileKeys) :
    dkeys (tier1Fill au d) = profileKeys := by
  unfold tier1Fill
  cases au.postsCount <;> cases au.followersCount <;> cases au.biography <;>
    simp only [] <;>
    (repeat
      first
      | exact h
      | refine dkeys_dset_of_keys _ _ _ ?_ (by decide))

theorem dkeys_tier2 (html : Str) (d : PyDict) (h : dkeys d = profileKeys) :
    dkeys (tier2Fill html d) = profileKeys := by
  unfold tier2Fill
  dsimp only []
  repeat' split
  all_goals
    repeat
      first
      | exact h
      | refine dkeys_dset_of_keys _ _ _ ?_ (by decide)

theorem dkeys_tier3 (dom : Option Str) (d : PyDict) (h : dkeys d = profileKeys) :
    dkeys (tier3Fill dom d) = profileKeys := by
  unfold tier3Fill
  split
  · cases dom
    · exact h
    · exact dkeys_dset_of_keys _ _ _ h (by decide)
  · exact h

theorem dget_tier1_other (au : ApiUser) (d : PyDict) (k : String)
    (h1 : k ≠ "postsCount") (h2 : k ≠ "followersCount") (h3 : k ≠ "biography") :
    dget (tier1Fill au d) k = dget d k := by
  unfold tier1Fill
  cases au.postsCount <;> cases au.followersCount <;> cases au.biography <;>
    simp only [] <;>
    (repeat rw [dget_dset_ne _ _ _ _ h3]) <;>
    (repeat rw [dget_dset_ne _ _ _ _ h2]) <;>
    (repeat rw [dget_dset_ne _ _ _ _ h1])

theorem dget_tier2_other (html : Str) (d : PyDict) (k : String)
    (h1 : k ≠ "postsCount") (h2 : k ≠ "followersCount") (h3 : k ≠ "biography") :
    dget (tier2Fill html d) k = dget d k := by
  unfold tier2Fill
  dsimp only []
  repeat' split
  all_goals
    (repeat
      first
      | rw [dget_dset_ne _ _ _ _ h1]
      | rw [dget_dset_ne _ _ _ _ h2]
      | rw [dget_dset_ne _ _ _ _ h3]) <;>
    try rfl

theorem dget_tier3_other (dom : Option Str) (d : PyDict) (k : String) (h3 : k ≠ "biography") :
    dget (tier3Fill dom d) k = dget d k := by
  unfold tier3Fill
  split
  · cases dom
    · rfl
    · exact dget_dset_ne _ _ _ _ h3
  · rfl

theorem dget_tier1_posts_none (au : ApiUser) (d : PyDict) (h : au.postsCount = none) :
    dget (tier1Fill au d) "postsCount" = dget d "postsCount" := by
  unfold tier1Fill
  rw [h]
  cases au.followersCount <;> cases au.biography <;>
    simp only [] <;>
    (repeat rw [dget_dset_ne _ _ _ _ (by decide : ("postsCount" : String) ≠ "biography")]) <;>
    (repeat rw [dget_dset_ne _ _ _ _ (by decide : ("postsCount" : String) ≠ "followersCount")])

/-- Keys of every record produced by `scrape_profile_info`. -/
theorem scrapeProfileInfo_dkeys (u : Str) (o : ProfileOutcome) :
    dkeys (scrapeProfileInfo u o) = profileKeys := by
  unfold scrapeProfileInfo
  cases o with
  | gotoTimeout => rfl
  | loaded p =>
    dsimp only []
    split
    · rfl
    · split
      · rfl
      · cases hap : p.apiUser with
        | some au =>
          exact dkeys_tier3 p.domBio _ (dkeys_tier1 au (profileInitData u) rfl)
        | none =>
          exact dkeys_tier3 p.domBio _ (dkeys_tier2 p.html (profileInitData u) rfl)

/-- Keys other than the three data fields are never reassigned. -/
theorem dget_scrapeProfileInfo_other (u : Str) (o : ProfileOutcome) (k : String)
    (h1 : k ≠ "postsCount") (h2 : k ≠ "followersCount") (h3 : k ≠ "biography") :
    dget (scrapeProfileInfo u o) k = dget (profileInitData u) k := by
  unfold scrapeProfileInfo
  cases o with
  | gotoTimeout => rfl
  | loaded p =>
    dsimp only []
    split
    · rfl
    · split
      · rfl
      · cases hap : p.apiUser with
        | some au =>
          exact (dget_tier3_other p.domBio _ k h3).trans
            (dget_tier1_other au (profileInitData u) k h1 h2 h3)
        | none =>
          exact (dget_tier3_other p.domBio _ k h3).trans
            (dget_tier2_other p.html (profileInitData u) k h1 h2 h3)

/-! ## Lemmas about the tier-2 leftmost search -/

theorem scanFirst_eq (f : Nat → Option α) :
    ∀ (k fuel s : Nat) (v : α), k < fuel → (∀ j, j < k → f (s + j) = none) →
      f (s + k) = some v → scanFirst f s fuel = some v
  | k, 0, _, _, hlt, _, _ => absurd hlt (Nat.not_lt_zero k)
  | 0, fuel + 1, s, v, _, _, hk => by
    simp only [scanFirst]
    rw [show s + 0 = s from rfl] at hk
    rw [hk]
  | k + 1, fuel + 1, s, v, hlt, hnone, hk => by
    simp only [scanFirst]
    rw [show f s = none by simpa using hnone 0 (Nat.succ_pos k)]
    refine scanFirst_eq f k fuel (s + 1) v (Nat.lt_of_succ_lt_succ hlt) ?_ ?_
    · intro j hj
      have harith : s + 1 + j = s + (j + 1) := by omega
      rw [harith]
      exact hnone (j + 1) (Nat.succ_lt_succ hj)
    · have harith : s + 1 + k = s + (k + 1) := by omega
      rw [harith]
      exact hk

theorem matchLit_none_of_head (lit s : Str) (c0 c : Char) (h0 : lit.head? = some c0)
    (hs : s.head? = some c) (hne : c ≠ c0) : matchLit lit s = none := by
  have hnp : ¬ (lit.isPrefixOf s = true) := by
    cases lit with
    | nil => simp at h0
    | cons a as =>
      cases s with
      | nil => simp at hs
      | cons b bs =>
        simp only [List.head?_cons, Option.some.injEq] at h0 hs
        subst h0
        subst hs
        simp only [List.isPrefixOf, Bool.and_eq_true, beq_iff_eq]
        intro hpre
        exact hne hpre.1.symm
  unfold matchLit
  rw [if_neg hnp]

theorem tryKeyCountAt_none (key html : Str) (i : Nat) (c0 c : Char)
    (hkey : key.head? = some c0) (hc : (html.drop i).head? = some c) (hne : c ≠ c0) :
    tryKeyCountAt key html i = none := by
  unfold tryKeyCountAt
  rw [matchLit_none_of_head key _ c0 c hkey hc hne]
  rfl

/-- Anchored evaluation of the posts-count pattern at the start of a text
beginning with the concrete marker: the pattern consumes only the marker's
characters, whatever follows. -/
theorem tryPostsCountAt_boundary (post : Str) :
    tryKeyCountAt "\"edge_owner_to_timeline_media\"".data
      ("\"edge_owner_to_timeline_media\":\x7b\"count\":842\x7d".data ++ post) 0
      = some "842".data := rfl

/-- The attempt of the posts-count pattern at position `i` only depends on
the text from `i` on. -/
theorem tryKeyCountAt_shift (key html : Str) (i : Nat) :
    tryKeyCountAt key html i = tryKeyCountAt key (html.drop i) 0 := rfl

/-- Leftmost-match computation of the tier-2 posts-count scan on a document
of the form `pre ++ marker ++ post` with a quote-free prefix: the first
position at which the pattern can match is the marker, and there it
captures `842`. -/
theorem searchPostsCount_boundary (pre post : Str) (hpre : ∀ c ∈ pre, c ≠ '"') :
    searchPostsCount
      (pre ++ "\"edge_owner_to_timeline_media\":\x7b\"count\":842\x7d".data ++ post)
      = some "842".data := by
  unfold searchPostsCount searchKeyCount
  refine scanFirst_eq _ pre.length _ 0 _ ?_ ?_ ?_
  · simp only [List.length_append]
    omega
  · intro j hj
    rw [Nat.zero_add]
    have hlt2 : j < (pre ++ "\"edge_owner_to_timeline_media\":\x7b\"count\":842\x7d".data).length := by
      simp only [List.length_append]
      omega
    have hget :
        (pre ++ "\"edge_owner_to_timeline_media\":\x7b\"count\":842\x7d".data ++ post)[j]?
          = some (pre.get ⟨j, hj⟩) := by
      rw [List.getElem?_append_left hlt2, List.getElem?_append_left hj]
      exact List.getElem?_eq_getElem hj
    refine tryKeyCountAt_none _ _ j '"' (pre.get ⟨j, hj⟩) rfl ?_ ?_
    · rw [List.head?_drop]
      exact hget
    · exact hpre _ (List.get_mem pre j hj)
  · rw [Nat.zero_add, tryKeyCountAt_shift]
    rw [List.append_assoc, List.drop_left]
    exact tryPostsCountAt_boundary post

theorem dget_tier2_posts (html : Str) (d : PyDict) (ds : Str)
    (hs : searchPostsCount html = some ds) (hd : dget d "postsCount" = some []) :
    dget (tier2Fill html d) "postsCount" = some ds := by
  have hp : ("postsCount" : String) ≠ "followersCount" := by decide
  have hb : ("postsCount" : String) ≠ "biography" := by decide
  unfold tier2Fill
  rw [hs]
  dsimp only []
  rw [if_pos hd]
  cases searchFollowersCount html <;> dsimp only []
  all_goals repeat' split
  all_goals
    repeat
      first
      | rw [dget_dset_ne _ _ _ _ hb]
      | rw [dget_dset_ne _ _ _ _ hp]
  all_goals exact dget_dset_self d "postsCount" ds

/-! ## Claim theorems -/

/-- Claim C2: `parse_count` maps `"2.5k"` to 2500, `"3.1m"` to 3100000 and
`"1,234"` to 1234; but it does **not** map every unparseable string to 0 —
on `"."` the captured `[\d\.]` run is a lone period, `float "."` raises
`ValueError`, and `parse_count` crashes instead of returning 0, contradicting
its own docstring (`Fallback: return 0 if cannot parse`). -/
theorem parseCount_roundtrips_and_dot_raises :
    parseCount "2.5k".data = Except.ok 2500 ∧
    parseCount "3.1m".data = Except.ok 3100000 ∧
    parseCount "1,234".data = Except.ok 1234 ∧
    parseCount "xyz".data = Except.ok 0 ∧
    parseCount ".".data = Except.error () :=
  ⟨rfl, rfl, rfl, rfl, rfl⟩

/-- Claim C9: `parse_count` is **not** total — on the input `"."` (matched
by `([\d\.]+)`) and on `"a.b"` (whose leftmost `[\d\.]` run found by
`re.search` is the lone period) the uncaught `float` `ValueError` escapes,
contradicting the docstring promise to return 0 when it cannot parse. -/
theorem parseCount_raises_on_dot :
    parseCount ".".data = Except.error () ∧ parseCount "a.b".data = Except.error () :=
  ⟨rfl, rfl⟩

/-- On raw strings the username guard also accepts a single trailing
newline — Python `$` matches just before a newline at the end of the
string — which is why the no-trailing-newline hypothesis of
`usernameFilter_iff_allowed` is needed.  Extraction results are stripped,
so this shape never reaches the guard in the pipeline. -/
theorem usernameFilter_accepts_trailing_newline :
    usernameFilterAccepts "abc\n".data = true ∧
      "abc\n".data.all isAllowedUsernameChar = false :=
  ⟨rfl, rfl⟩

/-- For every candidate that does not end with a newline — in particular
for every stripped extraction result — the guard keeps it iff it is
non-empty and consists only of letters, digits, periods and
underscores. -/
theorem usernameFilter_iff_allowed (u : Str) (h : u.getLast? ≠ some '\n') :
    usernameFilterAccepts u = true ↔ u ≠ [] ∧ u.all isAllowedUsernameChar = true := by
  unfold usernameFilterAccepts usernameRegexAccepts
  simp only [Bool.and_eq_true, Bool.or_eq_true, decide_eq_true_eq, Bool.not_eq_true',
    List.isEmpty_eq_false]
  constructor
  · rintro ⟨hne, hrun, hrest | hrest⟩
    · have hu : u.takeWhile isAllowedUsernameChar ++ u.dropWhile isAllowedUsernameChar = u :=
        List.takeWhile_append_dropWhile isAllowedUsernameChar u
      rw [hrest, List.append_nil] at hu
      refine ⟨hne, ?_⟩
      rw [← hu, List.all_eq_true]
      intro c hc
      exact List.mem_takeWhile_imp hc
    · exfalso
      apply h
      have hu : u.takeWhile isAllowedUsernameChar ++ u.dropWhile isAllowedUsernameChar = u :=
        List.takeWhile_append_dropWhile isAllowedUsernameChar u
      rw [hrest] at hu
      rw [← hu]
      simp
  · rintro ⟨hne, hall⟩
    have hdw : u.dropWhile isAllowedUsernameChar = [] := by
      rw [List.dropWhile_eq_nil_iff]
      intro x hx
      exact (List.all_eq_true.mp hall) x hx
    have htw : u.takeWhile isAllowedUsernameChar = u := by
      have hu : u.takeWhile isAllowedUsernameChar ++ u.dropWhile isAllowedUsernameChar = u :=
        List.takeWhile_append_dropWhile isAllowedUsernameChar u
      rw [hdw, List.append_nil] at hu
      exact hu
    refine ⟨hne, ?_, Or.inl hdw⟩
    rw [htw]
    rcases u with _ | ⟨c, cs⟩
    · exact absurd rfl hne
    · simp

/-- The no-trailing-newline iff evaluated at the concrete candidate
`"ab.cd"`. -/
theorem usernameFilter_iff_allowed_at_dotted :
    usernameFilterAccepts "ab.cd".data = true ↔
      "ab.cd".data ≠ [] ∧ "ab.cd".data.all isAllowedUsernameChar = true :=
  usernameFilter_iff_allowed "ab.cd".data (by decide)

theorem getLast?_dropTrailingWs_not_ws :
    ∀ (s : Str) (a : Char), (dropTrailingWs s).getLast? = some a → isPySpaceChar a = false
  | [], a => by simp [dropTrailingWs]
  | c :: rest, a => by
    simp only [dropTrailingWs]
    split
    · intro h
      simp at h
    · rename_i hcond
      rcases hr : dropTrailingWs rest with _ | ⟨b, bs⟩
      · intro h
        rw [List.getLast?_singleton] at h
        obtain rfl := Option.some.inj h
        rw [hr] at hcond
        simpa using hcond
      · intro h
        rw [List.getLast?_cons_cons] at h
        exact getLast?_dropTrailingWs_not_ws rest a (by rw [hr]; exact h)

/-- A stripped string never ends in a newline. -/
theorem stripStr_getLast_ne_nl (s : Str) : (stripStr s).getLast? ≠ some '\n' := fun h =>
  absurd (getLast?_dropTrailingWs_not_ws (dropLeadingWs s) '\n' h) (by decide)

/-- Every value Resolution produces is empty or stripped, hence never ends
in a newline — the extraction domain the username guard is applied to. -/
theorem extractUsername_no_trailing_newline (o : PostOutcome) :
    (extractUsernameFromPost o).getLast? ≠ some '\n' := by
  cases o with
  | gotoTimeout => simp [extractUsernameFromPost]
  | loaded p =>
    unfold extractUsernameFromPost
    dsimp only []
    repeat' split
    all_goals
      first
      | exact stripStr_getLast_ne_nl _
      | simp

/-- Claim C7: every candidate account handle produced by Resolution is kept
by the guard of `main` iff it is non-empty and consists only of letters,
digits, periods and underscores — every extraction result is stripped (or
empty), so it never ends in a newline, and on that domain the allow-list
iff holds exactly. -/
theorem usernameFilter_iff_allowed_on_extracted (o : PostOutcome) :
    usernameFilterAccepts (extractUsernameFromPost o) = true ↔
      extractUsernameFromPost o ≠ [] ∧
        (extractUsernameFromPost o).all isAllowedUsernameChar = true :=
  usernameFilter_iff_allowed (extractUsernameFromPost o)
    (extractUsername_no_trailing_newline o)

/-- Claim C7 (witness): the guard iff evaluated at a concrete resolved post
whose extracted handle is `"bob"`. -/
theorem usernameFilter_iff_allowed_on_extracted_witness :
    usernameFilterAccepts (extractUsernameFromPost (PostOutcome.loaded
      { pageUrl := "ig".data,
        html := "\"owner\":\x7b\"username\":\"bob\"".data,
        ogDescription := none })) = true ↔
      extractUsernameFromPost (PostOutcome.loaded
        { pageUrl := "ig".data,
          html := "\"owner\":\x7b\"username\":\"bob\"".data,
          ogDescription := none }) ≠ [] ∧
        (extractUsernameFromPost (PostOutcome.loaded
          { pageUrl := "ig".data,
            html := "\"owner\":\x7b\"username\":\"bob\"".data,
            ogDescription := none })).all isAllowedUsernameChar = true :=
  usernameFilter_iff_allowed_on_extracted _

/-- Claim C5: for every account handle and every page outcome (timeout,
login surface, not-found page or normal page) enrichment returns a record
whose `biography` key is present and holds a string (possibly empty), and
on login-surface detection the record equals the initial one — every field
empty except the handle and the profile URL. -/
theorem scrapeProfileInfo_never_fails (u : Str) (o : ProfileOutcome) :
    (∃ s : Str, dget (scrapeProfileInfo u o) "biography" = some s) ∧
    (∀ p : ProfilePage, o = ProfileOutcome.loaded p → loginCheck p.pageUrl p.html = true →
      scrapeProfileInfo u o = profileInitData u) := by
  constructor
  · have hmem : ("biography" : String) ∈ dkeys (scrapeProfileInfo u o) := by
      rw [scrapeProfileInfo_dkeys]
      decide
    obtain ⟨s, hs⟩ := Option.isSome_iff_exists.mp (dget_isSome_of_mem_dkeys _ _ hmem)
    exact ⟨s, hs⟩
  · intro p hP hlogin
    subst hP
    unfold scrapeProfileInfo
    dsimp only []
    rw [if_pos hlogin]

/-- Claim C5 (witness): the never-fails contract applied at the handle
`"bob"` and a login-surface outcome. -/
theorem scrapeProfileInfo_never_fails_witness :
    scrapeProfileInfo "bob".data (ProfileOutcome.loaded
      { pageUrl := "https://www.instagram.com/accounts/login/".data,
        html := "x".data, apiUser := none, domBio := none }) = profileInitData "bob".data :=
  (scrapeProfileInfo_never_fails "bob".data _).2 _ rfl rfl

/-- Claim C10: on every return path the record keeps exactly the five keys
`username`, `profile_url`, `postsCount`, `followersCount`, `biography`,
with `username` equal to the input handle and `profile_url` equal to the
instagram profile URL built from it. -/
theorem scrapeProfileInfo_identity (u : Str) (o : ProfileOutcome) :
    dkeys (scrapeProfileInfo u o) = profileKeys ∧
    dget (scrapeProfileInfo u o) "username" = some u ∧
    dget (scrapeProfileInfo u o) "profile_url" =
      some ("https://www.instagram.com/".data ++ u ++ "/".data) := by
  refine ⟨scrapeProfileInfo_dkeys u o, ?_, ?_⟩
  · rw [dget_scrapeProfileInfo_other u o "username" (by decide) (by decide) (by decide)]
    rfl
  · rw [dget_scrapeProfileInfo_other u o "profile_url" (by decide) (by decide) (by decide)]
    rfl

/-- Claim C1 (counterexample): a profile page whose tier-1 response yields a
user object without a posts count, while the raw document text does match
the tier-2 posts-count pattern (capturing `"842"`), still ends with an
**empty** `postsCount` — a truthy user object sets `api_success`, and the
whole tier-2 scan is skipped, so the missing field is not filled. -/
theorem scrapeProfileInfo_tier1_gap_not_filled :
    searchPostsCount "\"edge_owner_to_timeline_media\":\x7b\"count\":842\x7d".data
        = some "842".data ∧
    dget (scrapeProfileInfo "alice".data (ProfileOutcome.loaded
      { pageUrl := "ig".data,
        html := "\"edge_owner_to_timeline_media\":\x7b\"count\":842\x7d".data,
        apiUser := some { postsCount := none, followersCount := some 5,
                          biography := some "hi".data },
        domBio := none })) "postsCount" = some [] ∧
    ([] : Str) ≠ "842".data :=
  ⟨rfl, rfl, by decide⟩

/-- Claim C1 (amended): when tier 1 succeeds with a truthy user object, the
tier-2 text scan is skipped entirely, so an individual numeric field the
user object lacks stays empty — for every non-login, non-404 page whose
tier-1 user object has no posts count, the returned `postsCount` is the
empty string whatever the document text contains.  (Only the biography can
still fall through, to tier 3.) -/
theorem scrapeProfileInfo_tier1_skips_tier2 (u : Str) (p : ProfilePage) (au : ApiUser)
    (hapi : p.apiUser = some au) (hposts : au.postsCount = none)
    (hlogin : loginCheck p.pageUrl p.html = false)
    (hnf : notFoundCheck p.html = false) :
    dget (scrapeProfileInfo u (ProfileOutcome.loaded p)) "postsCount" = some [] := by
  unfold scrapeProfileInfo
  dsimp only []
  rw [hlogin, hnf, hapi]
  simp only [Bool.false_eq_true, if_false]
  rw [dget_tier3_other _ _ _ (by decide), dget_tier1_posts_none au _ hposts]
  rfl

/-- Claim C1 (witness): the amended skip property applied at a concrete
page whose text matches the tier-2 pattern. -/
theorem scrapeProfileInfo_tier1_skips_tier2_witness :
    dget (scrapeProfileInfo "alice".data (ProfileOutcome.loaded
      { pageUrl := "ig".data,
        html := "\"edge_owner_to_timeline_media\":\x7b\"count\":7\x7d".data,
        apiUser := some { postsCount := none, followersCount := none, biography := none },
        domBio := none })) "postsCount" = some [] :=
  scrapeProfileInfo_tier1_skips_tier2 "alice".data _ _ rfl rfl rfl rfl

/-- Claim C8 (counterexample): a document that does contain the substring
`"edge_owner_to_timeline_media":\x7b"count":842` (here followed by a
further digit) with no tier-1 success does **not** yield `postsCount =
"842"`: the greedy digit group captures `"8421"`. -/
theorem scrapeProfileInfo_tier2_greedy_capture :
    containsSub "\"edge_owner_to_timeline_media\":\x7b\"count\":842".data
        "\"edge_owner_to_timeline_media\":\x7b\"count\":8421".data = true ∧
    dget (scrapeProfileInfo "alice".data (ProfileOutcome.loaded
      { pageUrl := "ig".data,
        html := "\"edge_owner_to_timeline_media\":\x7b\"count\":8421".data,
        apiUser := none, domBio := none })) "postsCount" = some "8421".data ∧
    "8421".data ≠ "842".data :=
  ⟨rfl, rfl, by decide⟩

/-- Claim C8 (amended): for every non-login, non-404 profile page without a
tier-1 success whose document text is a quote-free prefix, then the marker
`"edge_owner_to_timeline_media":\x7b"count":842\x7d` (brace-closed, so the
count is not followed by further digits and the marker is the leftmost
match of the pattern), then anything, the returned record has
`postsCount = "842"`, populated by the tier-2 text scan. -/
theorem scrapeProfileInfo_tier2_posts_842 (u : Str) (p : ProfilePage) (pre post : Str)
    (hhtml : p.html =
      pre ++ "\"edge_owner_to_timeline_media\":\x7b\"count\":842\x7d".data ++ post)
    (hpre : ∀ c ∈ pre, c ≠ '"')
    (hapi : p.apiUser = none)
    (hlogin : loginCheck p.pageUrl p.html = false)
    (hnf : notFoundCheck p.html = false) :
    dget (scrapeProfileInfo u (ProfileOutcome.loaded p)) "postsCount" = some "842".data := by
  unfold scrapeProfileInfo
  dsimp only []
  rw [hlogin, hnf, hapi]
  simp only [Bool.false_eq_true, if_false]
  rw [dget_tier3_other _ _ _ (by decide)]
  refine dget_tier2_posts p.html _ _ ?_ rfl
  rw [hhtml]
  exact searchPostsCount_boundary pre post hpre

/-- Claim C8 (witness): the amended tier-2 scenario applied at a concrete
page. -/
theorem scrapeProfileInfo_tier2_posts_842_witness :
    dget (scrapeProfileInfo "alice".data (ProfileOutcome.loaded
      { pageUrl := "ig".data,
        html := "x".data ++
          "\"edge_owner_to_timeline_media\":\x7b\"count\":842\x7d".data ++ "tail".data,
        apiUser := none, domBio := none })) "postsCount" = some "842".data :=
  scrapeProfileInfo_tier2_posts_842 "alice".data _ "x".data "tail".data rfl (by decide)
    rfl rfl rfl

/-- Claim C6: for every topic run (login signal, selector outcome and
anchor harvests) the discovery output contains no duplicate locators, has
at most `maxPosts` entries, and has at most as many entries as there are
distinct anchors observed across all harvest iterations. -/
theorem scrapeHashtagPosts_bounds (inp : HashtagInput) (maxPosts maxScrolls : Nat) :
    (scrapeHashtagPosts inp maxPosts maxScrolls).Nodup ∧
    (scrapeHashtagPosts inp maxPosts maxScrolls).length ≤ maxPosts ∧
    (scrapeHashtagPosts inp maxPosts maxScrolls).length ≤
      (observedAnchors inp maxScrolls).dedup.length := by
  unfold scrapeHashtagPosts
  split
  · simp
  · split
    · simp
    · have hinv := hashtagLoop_invariant inp.anchors maxPosts
        ((observedAnchors inp maxScrolls).map processHref) maxScrolls 0 []
        List.nodup_nil (by simp) ?hanch
      case hanch =>
        intro j hj h hmem
        refine List.mem_map_of_mem processHref ?_
        unfold observedAnchors
        rw [List.mem_flatten]
        refine ⟨(inp.anchors j).filterMap id, List.mem_map.mpr ⟨j, List.mem_range.mpr hj, rfl⟩, ?_⟩
        rw [List.mem_filterMap]
        exact ⟨some h, by simpa using hmem, rfl⟩
      set L := hashtagLoop inp.anchors maxPosts 0 maxScrolls [] with hL
      have hnd : (L.take maxPosts).Nodup := hinv.1.sublist (List.take_sublist _ _)
      have hsub : ∀ y ∈ L.take maxPosts, y ∈ (observedAnchors inp maxScrolls).map processHref :=
        fun y hy => hinv.2 y (List.mem_of_mem_take hy)
      refine ⟨hnd, ?_, ?_⟩
      · rw [List.length_take]
        exact Nat.min_le_left _ _
      · calc (L.take maxPosts).length = (L.take maxPosts).toFinset.card :=
              (List.toFinset_card_of_nodup hnd).symm
          _ ≤ ((observedAnchors inp maxScrolls).toFinset.image processHref).card := by
              refine Finset.card_le_card ?_
              intro a ha
              obtain ⟨b, hb, rfl⟩ := List.mem_map.mp (hsub a (List.mem_toFinset.mp ha))
              exact Finset.mem_image.mpr ⟨b, List.mem_toFinset.mpr hb, rfl⟩
          _ ≤ (observedAnchors inp maxScrolls).toFinset.card := Finset.card_image_le
          _ = (observedAnchors inp maxScrolls).dedup.length := List.card_toFinset _

/-- Claim C3 (counterexample): the biography normalisation is **not**
idempotent for every input and flag value: with the ASCII flag on, the
input `"é a"` normalises to `" a"` — dropping the non-ASCII character
after the strip exposes a new leading space — and a second pass strips it
further, to `"a"`. -/
theorem cleanBiography_not_idempotent :
    cleanBiography "é a".data true = " a".data ∧
    cleanBiography (cleanBiography "é a".data true) true = "a".data ∧
    cleanBiography (cleanBiography "é a".data true) true ≠ cleanBiography "é a".data true :=
  ⟨rfl, rfl, by decide⟩

/-- Claim C3 (amended): the biography normalisation is idempotent whenever
the ASCII flag is off, and — for either flag value — on every input all of
whose characters are ASCII (code point below 128); the failure needs a
non-ASCII character whose removal exposes new boundary whitespace or a new
literal backslash-n. -/
theorem cleanBiography_idem :
    (∀ s : Str, cleanBiography (cleanBiography s false) false = cleanBiography s false) ∧
    (∀ (s : Str) (b : Bool), (∀ c ∈ s, c.toNat < 128) →
      cleanBiography (cleanBiography s b) b = cleanBiography s b) := by
  refine ⟨cleanBiography_false_fixed, ?_⟩
  intro s b h
  cases b with
  | false => exact cleanBiography_false_fixed s
  | true =>
    rw [cleanBiography_true_eq_false s h]
    have hmem : ∀ c ∈ cleanBiography s false, c.toNat < 128 := by
      intro c hc
      rcases mem_cleanBiography_false s c hc with h2 | h2
      · exact h c h2
      · subst h2
        decide
    rw [cleanBiography_true_eq_false _ hmem]
    exact cleanBiography_false_fixed _

/-- Claim C3 (witness): the amended idempotence applied at the concrete
biography `" x\\ny "` (flag on, literal backslash-n, boundary spaces) and
at `"a\\nb"` with the flag off. -/
theorem cleanBiography_idem_witness :
    cleanBiography (cleanBiography "a\\nb".data false) false = cleanBiography "a\\nb".data false ∧
    cleanBiography (cleanBiography " x\\ny ".data true) true = cleanBiography " x\\ny ".data true :=
  ⟨cleanBiography_idem.1 "a\\nb".data, cleanBiography_idem.2 " x\\ny ".data true (by decide)⟩

/-- Claim C4 (counterexample): a post page whose `og:description` matches
the parenthesized at-handle pattern with the blank handle `" "` (stripped to
`""`) does **not** return that handle: the empty strip falls through to
strategy 2, which returns `"bob"` from the embedded owner object. -/
theorem extractUsername_strategy1_blank_falls_through :
    searchParenHandle (stripStr "(@ )".data) = some " ".data ∧
    extractUsernameFromPost (.loaded
      { pageUrl := "ig".data,
        html := "\"owner\":\x7b\"username\":\"bob\"".data,
        ogDescription := some "(@ )".data }) = "bob".data ∧
    "bob".data ≠ stripStr " ".data ∧ "bob".data ≠ " ".data :=
  ⟨rfl, rfl, by decide, by decide⟩

/-- Claim C4 (amended): on every non-login post page whose `og:description`
matches the parenthesized at-handle pattern with a handle that is non-empty
after stripping, that stripped handle is returned, whatever the document
text — strategies 2 and 3 are never consulted. -/
theorem extractUsername_strategy1_priority (p : PostPage) (c g : Str)
    (hlogin : loginCheck p.pageUrl p.html = false)
    (hog : p.ogDescription = some c)
    (hmatch : searchParenHandle (stripStr c) = some g)
    (hne : stripStr g ≠ []) :
    extractUsernameFromPost (.loaded p) = stripStr g := by
  simp only [extractUsernameFromPost, hog, hlogin, hmatch]
  simp [hne]

/-- Claim C4 (witness): the amended priority applied at a concrete page on
which strategy 3 would extract the different value `"eve"`. -/
theorem extractUsername_strategy1_priority_witness :
    extractUsernameFromPost (.loaded
      { pageUrl := "ig".data,
        html := "\"username\":\"eve\",\"is_verified\"".data,
        ogDescription := some " (@bob) photo".data }) = stripStr "bob".data :=
  extractUsername_strategy1_priority _ " (@bob) photo".data "bob".data rfl rfl rfl (by decide)
example : parseCount "3.1m".data = Except.ok 3100000 := rfl
example : parseCount "1,234".data = Except.ok 1234 := rfl
example : parseCount "abc".data = Except.ok 0 := rfl
example : parseCount ".".data = Except.error () := rfl
example : parseCount "a.b".data = Except.error () := rfl
example : cleanBiography "é a".data true = " a".data := rfl
example : cleanBiography " a".data true = "a".data := rfl
example : cleanBiography "Artist 🎨\nLove travel".data true = "Artist  Love travel".data := rfl

end IgFree
